import Mathlib

set_option maxRecDepth 1000000
set_option maxHeartbeats 1000000

/-!
Shallow embedding, in Lean 4, of the core of the MediStream triage backend
(`backend/agents/triage_agent.py`, `backend/agents/specialist_scout.py`,
`backend/models/state.py`).  Python strings are modelled as `List Char`
(indices are code points, as in Python), Python floats arising from parsing
decimal literals are modelled as exact rationals, Python `None`/optional
values as `Option`, Python dictionaries (which preserve insertion order) as
association lists, and Python exceptions as `Except`.  The external language
model call and the specialist lookup are parameters of the pipeline
functions, mirroring their role as black-box collaborators.
-/

/-- Left brace character, written via its code point. -/
def lbraceC : Char := Char.ofNat 123

/-- Right brace character, written via its code point. -/
def rbraceC : Char := Char.ofNat 125

/-- Backtick character, written via its code point. -/
def backtickC : Char := Char.ofNat 96

/-- Python `\s` / `str.strip` whitespace, restricted to ASCII as produced here. -/
def isPyWs (c : Char) : Bool :=
  c = ' ' || c = '\t' || c = '\n' || c = '\r' || c = Char.ofNat 11 || c = Char.ofNat 12

/-- Characters matched by the regex class `[\d.]`. -/
def isDigitDotC (c : Char) : Bool := c.isDigit || c = '.'

/-- Characters matched by the regex class `[<>=]`. -/
def isOpC (c : Char) : Bool := c = '<' || c = '>' || c = '='

/-- Closing characters matched by the regex class `[}\]]`. -/
def isCloserC (c : Char) : Bool := c = rbraceC || c = ']'

/-- Python `str.strip()`: remove leading and trailing whitespace. -/
def pyStrip (l : List Char) : List Char :=
  ((l.dropWhile isPyWs).reverse.dropWhile isPyWs).reverse

/-- Whether `n` occurs as a leading segment of `h`. -/
def leadsWith : List Char → List Char → Bool
  | [], _ => true
  | _ :: _, [] => false
  | a :: as, b :: bs => a = b && leadsWith as bs

/-- Python `n in h` on strings: `n` occurs contiguously inside `h`. -/
def hasSub (n : List Char) : List Char → Bool
  | [] => n.isEmpty
  | h@(_ :: t) => leadsWith n h || hasSub n t

/-- Python `needle in hay` for `String` arguments. -/
def strContains (hay needle : String) : Bool := hasSub needle.toList hay.toList

/-- Python `str.find(c, start)`: index of the first occurrence of `c` at or
after `start`, if any. -/
def pyFind (l : List Char) (c : Char) (start : Nat) : Option Nat :=
  match (l.drop start).findIdx? (fun x => x = c) with
  | some i => some (start + i)
  | none => none

/-- Python `str.rfind(c, 0, stop)`: index of the last occurrence of `c`
strictly before `stop`, if any. -/
def pyRFind (l : List Char) (c : Char) (stop : Nat) : Option Nat :=
  match ((l.take stop).reverse.findIdx? (fun x => x = c)) with
  | some i => some ((l.take stop).length - 1 - i)
  | none => none

/-- Numeric value of a list of decimal digit characters (value of `int` parsing;
the empty list yields 0, used for empty integer or fraction parts). -/
def digitsToNat (l : List Char) : Nat :=
  l.foldl (fun n c => 10 * n + (c.toNat - 48)) 0

/-- Decimal parts of a string drawn from the regex class `[\d.]+`: the scaled
integer numerator and the power-of-ten shift, provided the string is a valid
`float` literal (at most one dot, at least one digit). -/
def decParts? (l : List Char) : Option (Nat × Nat) :=
  let intPart := l.takeWhile (fun c => c ≠ '.')
  let rest := l.dropWhile (fun c => c ≠ '.')
  match rest with
  | [] => if intPart.isEmpty then none else some (digitsToNat intPart, 0)
  | _ :: frac =>
    if frac.contains '.' then none
    else if intPart.isEmpty && frac.isEmpty then none
    else some (digitsToNat intPart * 10 ^ frac.length + digitsToNat frac, frac.length)

/-- Python `float` on a string drawn from the regex class `[\d.]+`, as an exact
rational. -/
def floatOfDotRun? (l : List Char) : Option ℚ :=
  (decParts? l).map (fun p => mkRat p.1 (10 ^ p.2))

/-- Python `float` on a match of `[\d.]+(?:[eE][+-]?\d+)?`: a dot-run mantissa
with an optional scientific-notation exponent. -/
def floatSci? (l : List Char) : Option ℚ :=
  let m := l.takeWhile (fun c => c ≠ 'e' && c ≠ 'E')
  match l.dropWhile (fun c => c ≠ 'e' && c ≠ 'E') with
  | [] => floatOfDotRun? m
  | _ :: r =>
    let (neg, ds) :=
      match r with
      | c :: r2 => if c = '+' then (false, r2) else if c = '-' then (true, r2) else (false, r)
      | [] => (false, r)
    if ds.isEmpty || ds.any (fun c => ¬ c.isDigit) then none
    else
      (decParts? m).map (fun p =>
        if neg then mkRat p.1 (10 ^ p.2 * 10 ^ digitsToNat ds)
        else mkRat (p.1 * 10 ^ digitsToNat ds) (10 ^ p.2))

/-- One attempt of the regex `([\d.]+)\s*-\s*([\d.]+)` anchored at the head of
the input, returning the two captured groups. -/
def tryRangeAt (l : List Char) : Option (List Char × List Char) :=
  let r1 := l.takeWhile isDigitDotC
  if r1.isEmpty then none
  else
    match (l.dropWhile isDigitDotC).dropWhile isPyWs with
    | c :: rest3 =>
      if c = '-' then
        let rest4 := rest3.dropWhile isPyWs
        let r2 := rest4.takeWhile isDigitDotC
        if r2.isEmpty then none else some (r1, r2)
      else none
    | [] => none

/-- Model of `re.search(r'([\d.]+)\s*-\s*([\d.]+)', s)`: earliest-position match. -/
def rangeSearch : List Char → Option (List Char × List Char)
  | [] => none
  | l@(_ :: t) =>
    match tryRangeAt l with
    | some g => some g
    | none => rangeSearch t

/-- One attempt of the regex `([<>=]+)?\s*([\d.]+)` anchored at the head of the
input, returning the operator group (possibly empty, for an absent group) and
the numeric group. -/
def trySingleAt (l : List Char) : Option (List Char × List Char) :=
  let ops := l.takeWhile isOpC
  let rest2 := ((l.dropWhile isOpC).dropWhile isPyWs)
  let num := rest2.takeWhile isDigitDotC
  if num.isEmpty then none else some (ops, num)

/-- Model of `re.search(r'([<>=]+)?\s*([\d.]+)', s)`: earliest-position match. -/
def singleSearch : List Char → Option (List Char × List Char)
  | [] => none
  | l@(_ :: t) =>
    match trySingleAt l with
    | some g => some g
    | none => singleSearch t

/-- Body of `parse_normal_range` on the character list of the input string
(`triage_agent.py`, lines 605-636): a hyphenated pair is tried first, then a
single value with an optional comparison operator, with `float` conversion
failures falling through exactly as the `except ValueError: pass` does. -/
def pnrCore (cs : List Char) : Option ℚ × Option ℚ :=
  if cs.isEmpty then (none, none)
  else
    let viaRange :=
      match rangeSearch cs with
      | some (g1, g2) =>
        match floatOfDotRun? g1, floatOfDotRun? g2 with
        | some a, some b => some (some a, some b)
        | _, _ => none
      | none => none
    match viaRange with
    | some r => r
    | none =>
      match singleSearch cs with
      | some (ops, g2) =>
        match floatOfDotRun? g2 with
        | some v =>
          if ops = [ '<' ] then (none, some v)
          else if ops = [ '>' ] then (some v, none)
          else (some v, some v)
        | none => (none, none)
      | none => (none, none)

/-- Function `parse_normal_range` from `triage_agent.py` (nested in `_parse_biomarkers`):
parse a normal-range string into optional (min, max) bounds.  A non-string
argument, which the Python code also maps to `(None, None)`, is handled at the
call site. -/
def parse_normal_range (s : String) : Option ℚ × Option ℚ := pnrCore s.toList

/-- Function `extract_value_and_unit` from `triage_agent.py` (nested in
`_parse_biomarkers`): strip a leading comparison operator, find the first
number (regex `([\d.]+(?:[eE][+-]?\d+)?)`), and return it with the trailing
unit; on no match or a `float` conversion failure return `(0.0, value_str)`
with the operator-stripped string. -/
def extract_value_and_unit (s : String) : ℚ × String :=
  if s.toList.isEmpty then (0, "")
  else
    let t := (pyStrip s.toList).dropWhile isOpC
    let rest := t.dropWhile (fun c => ¬ isDigitDotC c)
    match rest with
    | [] => (0, t.asString)
    | _ :: _ =>
      let run := rest.takeWhile isDigitDotC
      let after := rest.dropWhile isDigitDotC
      let (grp, after2) :=
        match after with
        | c :: r1 =>
          if c = 'e' ∨ c = 'E' then
            let (sgn, r2) :=
              match r1 with
              | c2 :: r2' => if c2 = '+' ∨ c2 = '-' then ([c2], r2') else (([] : List Char), r1)
              | [] => (([] : List Char), r1)
            let ds := r2.takeWhile Char.isDigit
            if ds.isEmpty then (run, after)
            else (run ++ c :: (sgn ++ ds), r2.dropWhile Char.isDigit)
          else (run, after)
        | [] => (run, after)
      match floatSci? grp with
      | some v => (v, (pyStrip after2).asString)
      | none => (0, t.asString)

/-- Python `str.lower()` restricted to the ASCII text handled here. -/
def lowerStr (s : String) : String := (s.toList.map Char.toLower).asString

/-- JSON values as produced by Python `json.loads`; object fields keep
insertion order, as Python dictionaries do. -/
inductive JsonVal where
  | null : JsonVal
  | bool : Bool → JsonVal
  | num : ℚ → JsonVal
  | str : String → JsonVal
  | arr : List JsonVal → JsonVal
  | obj : List (String × JsonVal) → JsonVal

/-- A `json.JSONDecodeError`: whether the message reads "Unterminated string"
and the `pos` attribute (for unterminated strings, the index of the opening
quote, as CPython reports it). -/
structure JErr where
  unterminated : Bool
  pos : Nat

/-- Skip JSON whitespace, tracking the character index. -/
def jSkipWs : List Char → Nat → List Char × Nat
  | c :: r, p =>
    if c = ' ' ∨ c = '\t' ∨ c = '\n' ∨ c = '\r' then jSkipWs r (p + 1) else (c :: r, p)
  | [], p => ([], p)

/-- Value of a hexadecimal digit character. -/
def hexVal? (c : Char) : Option Nat :=
  if c.isDigit then some (c.toNat - 48)
  else if 'a' ≤ c ∧ c ≤ 'f' then some (c.toNat - 87)
  else if 'A' ≤ c ∧ c ≤ 'F' then some (c.toNat - 55)
  else none

/-- JSON string escape characters. -/
def escMap? (e : Char) : Option Char :=
  if e = '"' then some '"'
  else if e = '\\' then some '\\'
  else if e = '/' then some '/'
  else if e = 'b' then some (Char.ofNat 8)
  else if e = 'f' then some (Char.ofNat 12)
  else if e = 'n' then some '\n'
  else if e = 'r' then some '\r'
  else if e = 't' then some '\t'
  else none

/-- Scan a JSON string body (after the opening quote at index `openPos`),
returning the decoded content, the remaining input and the index after the
closing quote.  Hitting the end of input yields the "Unterminated string"
error positioned at the opening quote, as CPython does. -/
def jString (openPos : Nat) : List Char → Nat → Except JErr (List Char × List Char × Nat)
  | [], _ => .error ⟨true, openPos⟩
  | c :: r, p =>
    if c = '"' then .ok ([], r, p + 1)
    else if c = '\\' then
      match r with
      | [] => .error ⟨true, openPos⟩
      | e :: r2 =>
        if e = 'u' then
          match r2 with
          | h1 :: h2 :: h3 :: h4 :: r3 =>
            match hexVal? h1, hexVal? h2, hexVal? h3, hexVal? h4 with
            | some a, some b, some c2, some d =>
              match jString openPos r3 (p + 6) with
              | .ok (content, rest, p2) =>
                .ok (Char.ofNat (a * 4096 + b * 256 + c2 * 16 + d) :: content, rest, p2)
              | .error err => .error err
            | _, _, _, _ => .error ⟨false, p⟩
          | _ => .error ⟨false, p⟩
        else
          match escMap? e with
          | some c2 =>
            match jString openPos r2 (p + 2) with
            | .ok (content, rest, p2) => .ok (c2 :: content, rest, p2)
            | .error err => .error err
          | none => .error ⟨false, p⟩
    else if c.toNat < 32 then .error ⟨false, p⟩
    else
      match jString openPos r (p + 1) with
      | .ok (content, rest, p2) => .ok (c :: content, rest, p2)
      | .error err => .error err

/-- Parse a JSON number (the `-?(0|[1-9]\\d*)(\\.\\d+)?([eE][+-]?\\d+)?` grammar),
as an exact rational. -/
def jNumber (l : List Char) (p : Nat) : Except JErr (ℚ × List Char × Nat) :=
  match (match l with
    | '-' :: r => (true, r, p + 1)
    | _ => (false, l, p) : Bool × List Char × Nat) with
  | (neg, l1, p1) =>
    match l1 with
    | c :: _ =>
      if ¬ c.isDigit then .error ⟨false, p⟩
      else
        match (if c = '0' then ([c], l1.drop 1, p1 + 1)
               else
                 match l1.span Char.isDigit with
                 | (run, rest) => (run, rest, p1 + run.length) : List Char × List Char × Nat) with
        | (intd, l2, p2) =>
          match (match l2 with
            | '.' :: r2 =>
              (match r2.span Char.isDigit with
               | ([], _) => (([] : List Char), l2, p2)
               | (ds, rest2) => (ds, rest2, p2 + 1 + ds.length))
            | _ => (([] : List Char), l2, p2) : List Char × List Char × Nat) with
          | (fracd, l3, p3) =>
            match (match l3 with
              | c2 :: r3 =>
                if c2 = 'e' ∨ c2 = 'E' then
                  match r3 with
                  | s :: r4 =>
                    if s = '+' ∨ s = '-' then
                      match r4.span Char.isDigit with
                      | ([], _) => (false, ([] : List Char), l3, p3)
                      | (ds, rest4) => (s = '-', ds, rest4, p3 + 2 + ds.length)
                    else
                      match r3.span Char.isDigit with
                      | ([], _) => (false, ([] : List Char), l3, p3)
                      | (ds, rest3) => (false, ds, rest3, p3 + 1 + ds.length)
                  | [] => (false, ([] : List Char), l3, p3)
                else (false, ([] : List Char), l3, p3)
              | [] => (false, ([] : List Char), l3, p3) : Bool × List Char × List Char × Nat) with
            | (expNeg, expd, l4, p4) =>
              .ok ((if expNeg then
                      mkRat ((if neg then -1 else 1) *
                        ((digitsToNat intd * 10 ^ fracd.length + digitsToNat fracd : Nat) : Int))
                        (10 ^ fracd.length * 10 ^ digitsToNat expd)
                    else
                      mkRat ((if neg then -1 else 1) *
                        ((digitsToNat intd * 10 ^ fracd.length + digitsToNat fracd : Nat) : Int) *
                        10 ^ digitsToNat expd)
                        (10 ^ fracd.length)),
                l4, p4)
    | [] => .error ⟨false, p⟩

/-- Insert a key into an object under construction, replacing the value of an
existing key in place — Python dictionary assignment semantics. -/
def objInsert (acc : List (String × JsonVal)) (k : String) (v : JsonVal) : List (String × JsonVal) :=
  if acc.any (fun e => e.1 == k) then acc.map (fun e => if e.1 == k then (k, v) else e)
  else acc ++ [(k, v)]

mutual

/-- Parse one JSON value.  The fuel argument only bounds recursion depth; the
top-level entry point supplies more than enough. -/
def jValue : Nat → List Char → Nat → Except JErr (JsonVal × List Char × Nat)
  | 0, _, p => .error ⟨false, p⟩
  | Nat.succ f, l, p =>
    match l with
    | [] => .error ⟨false, p⟩
    | c :: r =>
      if c = '"' then
        match jString p r (p + 1) with
        | .ok (content, rest, p2) => .ok (.str content.asString, rest, p2)
        | .error e => .error e
      else if c = lbraceC then
        match jSkipWs r (p + 1) with
        | (l1, p1) =>
          match l1 with
          | d :: r2 => if d = rbraceC then .ok (.obj [], r2, p1 + 1) else jMembers f [] l1 p1
          | [] => .error ⟨false, p1⟩
      else if c = '[' then
        match jSkipWs r (p + 1) with
        | (l1, p1) =>
          match l1 with
          | d :: r2 => if d = ']' then .ok (.arr [], r2, p1 + 1) else jElems f [] l1 p1
          | [] => .error ⟨false, p1⟩
      else if c = 't' then
        if leadsWith ['r', 'u', 'e'] r then .ok (.bool true, r.drop 3, p + 4) else .error ⟨false, p⟩
      else if c = 'f' then
        if leadsWith ['a', 'l', 's', 'e'] r then .ok (.bool false, r.drop 4, p + 5) else .error ⟨false, p⟩
      else if c = 'n' then
        if leadsWith ['u', 'l', 'l'] r then .ok (.null, r.drop 3, p + 4) else .error ⟨false, p⟩
      else if c.isDigit ∨ c = '-' then
        match jNumber l p with
        | .ok (q, rest, p2) => .ok (.num q, rest, p2)
        | .error e => .error e
      else .error ⟨false, p⟩

/-- Parse the members of a JSON object, starting at a property name; a comma
not followed by a property name fails, as in CPython (this is why the repair
passes strip trailing commas). -/
def jMembers : Nat → List (String × JsonVal) → List Char → Nat → Except JErr (JsonVal × List Char × Nat)
  | 0, _, _, p => .error ⟨false, p⟩
  | Nat.succ f, acc, l, p =>
    match l with
    | c :: r =>
      if c = '"' then
        match jString p r (p + 1) with
        | .error e => .error e
        | .ok (key, rest, p2) =>
          match jSkipWs rest p2 with
          | (l1, p3) =>
            match l1 with
            | ':' :: r2 =>
              match jSkipWs r2 (p3 + 1) with
              | (l2, p4) =>
                match jValue f l2 p4 with
                | .error e => .error e
                | .ok (v, rest2, p5) =>
                  match jSkipWs rest2 p5 with
                  | (l3, p6) =>
                    match l3 with
                    | ',' :: r3 =>
                      match jSkipWs r3 (p6 + 1) with
                      | (l4, p7) => jMembers f (objInsert acc key.asString v) l4 p7
                    | d :: r3 =>
                      if d = rbraceC then .ok (.obj (objInsert acc key.asString v), r3, p6 + 1)
                      else .error ⟨false, p6⟩
                    | [] => .error ⟨false, p6⟩
            | _ => .error ⟨false, p3⟩
      else .error ⟨false, p⟩
    | [] => .error ⟨false, p⟩

/-- Parse the elements of a JSON array, starting at a value. -/
def jElems : Nat → List JsonVal → List Char → Nat → Except JErr (JsonVal × List Char × Nat)
  | 0, _, _, p => .error ⟨false, p⟩
  | Nat.succ f, acc, l, p =>
    match jValue f l p with
    | .error e => .error e
    | .ok (v, rest, p2) =>
      match jSkipWs rest p2 with
      | (l1, p3) =>
        match l1 with
        | ',' :: r2 =>
          match jSkipWs r2 (p3 + 1) with
          | (l2, p4) => jElems f (acc ++ [v]) l2 p4
        | d :: r2 => if d = ']' then .ok (.arr (acc ++ [v]), r2, p3 + 1) else .error ⟨false, p3⟩
        | [] => .error ⟨false, p3⟩

end

/-- Python `json.loads`: parse a complete JSON document, rejecting trailing
non-whitespace ("Extra data"). -/
def jsonLoadsTop (l : List Char) : Except JErr JsonVal :=
  match jSkipWs l 0 with
  | (l1, p1) =>
    match jValue (2 * l.length + 16) l1 p1 with
    | .error e => .error e
    | .ok (v, rest, p2) =>
      match jSkipWs rest p2 with
      | (rest2, p3) => if rest2.isEmpty then .ok v else .error ⟨false, p3⟩

/-- Run one left-to-right, non-overlapping `re.sub` pass given a matcher that,
anchored at the current position, returns the match length (at least one) and
its replacement. -/
def applySub (t : List Char → Option (Nat × List Char)) : Nat → List Char → List Char
  | 0, l => l
  | _ + 1, [] => []
  | f + 1, l@(c :: rest) =>
    match t l with
    | some (n, rep) => rep ++ applySub t f (l.drop n)
    | none => c :: applySub t f rest

/-- Run a `re.sub` pass over a whole string (fuel = its length suffices since
every match consumes at least one character). -/
def runSub (t : List Char → Option (Nat × List Char)) (l : List Char) : List Char :=
  applySub t l.length l

/-- Matcher for `re.sub(r',\s*([}\]])', r'\1', s)` (`triage_agent.py` line 705). -/
def trySub1 (l : List Char) : Option (Nat × List Char) :=
  match l with
  | c :: r =>
    if c = ',' then
      let ws := r.takeWhile isPyWs
      match r.drop ws.length with
      | d :: _ => if isCloserC d then some (1 + ws.length + 1, [d]) else none
      | [] => none
    else none
  | [] => none

/-- Matcher for `re.sub(r',+([}\]])', r'\1', s)` (line 706). -/
def trySub2 (l : List Char) : Option (Nat × List Char) :=
  let commas := l.takeWhile (fun c => c = ',')
  if commas.isEmpty then none
  else
    match l.drop commas.length with
    | d :: _ => if isCloserC d then some (commas.length + 1, [d]) else none
    | [] => none

/-- Matcher for `re.sub(r',\s*([}\]])+', r'\1', s)` (line 707): the repeated
group captures only its last occurrence, so the replacement is the last closer. -/
def trySub3 (l : List Char) : Option (Nat × List Char) :=
  match l with
  | c :: r =>
    if c = ',' then
      let ws := r.takeWhile isPyWs
      let closers := (r.drop ws.length).takeWhile isCloserC
      if closers.isEmpty then none
      else some (1 + ws.length + closers.length, [closers.getLastD ' '])
    else none
  | [] => none

/-- Matcher for `re.sub(r',+(\s*[}\]])', r'\1', s)` (line 728). -/
def trySub4 (l : List Char) : Option (Nat × List Char) :=
  let commas := l.takeWhile (fun c => c = ',')
  if commas.isEmpty then none
  else
    let rest := l.drop commas.length
    let ws := rest.takeWhile isPyWs
    match rest.drop ws.length with
    | d :: _ => if isCloserC d then some (commas.length + ws.length + 1, ws ++ [d]) else none
    | [] => none

/-- Greedy scan of `(\s*[}\]])+`, returning the consumed length and the text of
the last repetition of the group. -/
def wsCloserGroups : Nat → List Char → Option (Nat × List Char)
  | 0, _ => none
  | f + 1, l =>
    let ws := l.takeWhile isPyWs
    match l.drop ws.length with
    | d :: rest =>
      if isCloserC d then
        match wsCloserGroups f rest with
        | some (n, g) => some (ws.length + 1 + n, g)
        | none => some (ws.length + 1, ws ++ [d])
      else none
    | [] => none

/-- Matcher for `re.sub(r',(\s*[}\]])+', lambda m: m.group(1), s)` (line 734):
the lambda returns the last captured repetition, so earlier closers in the
match are dropped. -/
def trySub5 (l : List Char) : Option (Nat × List Char) :=
  match l with
  | c :: r =>
    if c = ',' then
      match wsCloserGroups r.length r with
      | some (n, g) => some (1 + n, g)
      | none => none
    else none
  | [] => none

/-- Index just past the first match of `re.search(r'```(?:json)?\s*', s, re.IGNORECASE)`,
if the text contains a fenced code-block marker. -/
def codeBlockSearchStart (l : List Char) : Option Nat :=
  let rec go : List Char → Nat → Option Nat
    | [], _ => none
    | l2@(_ :: t), i =>
      if leadsWith [backtickC, backtickC, backtickC] l2 then some i else go t (i + 1)
  match go l 0 with
  | none => none
  | some i =>
    let afterTicks := l.drop (i + 3)
    let jsonTail := (afterTicks.take 4).map Char.toLower = ['j', 's', 'o', 'n']
    let j := if jsonTail then i + 7 else i + 3
    let rest := if jsonTail then afterTicks.drop 4 else afterTicks
    some (j + (rest.takeWhile isPyWs).length)

/-- Index of the opening brace that starts the candidate JSON payload
(`triage_agent.py` lines 645-656): the first brace after a fenced code-block
marker when one exists, else the first brace of the text. -/
def jsonStartIndex (l : List Char) : Option Nat :=
  match codeBlockSearchStart l with
  | some st => pyFind l lbraceC st
  | none => pyFind l lbraceC 0

/-- The brace-depth scan of lines 661-694: walk forward from the payload start
tracking string state and backslash escapes, and return the index just past the
brace that closes the payload (if found) together with the final depth. -/
def braceScanAux : List Char → Nat → Int → Bool → Bool → Option Nat × Int
  | [], _, cnt, _, _ => (none, cnt)
  | c :: r, i, cnt, inS, esc =>
    if esc then braceScanAux r (i + 1) cnt inS false
    else if c = '\\' then braceScanAux r (i + 1) cnt inS true
    else if c = '"' then braceScanAux r (i + 1) cnt (!inS) esc
    else if ¬ inS ∧ c = lbraceC then braceScanAux r (i + 1) (cnt + 1) inS esc
    else if ¬ inS ∧ c = rbraceC then
      if cnt - 1 = 0 then (some (i + 1), 0) else braceScanAux r (i + 1) (cnt - 1) inS esc
    else braceScanAux r (i + 1) cnt inS esc

/-- Candidate JSON payload of the response (lines 645-694): the balanced span
from the first brace, or the whole remainder when the text ends before the
braces balance. -/
def pbJsonStr? (resp : List Char) : Option (List Char) :=
  match jsonStartIndex resp with
  | none => none
  | some start =>
    let tail := resp.drop start
    match braceScanAux tail 0 0 false false with
    | (some endLen, _) => some (tail.take endLen)
    | (none, cnt) => if cnt > 0 then some tail else none

/-- Append missing closing braces when opening braces outnumber closing ones
(lines 711-715); the counts are raw character counts, as in the source. -/
def balanceClose (l : List Char) : List Char :=
  let opens := l.count lbraceC
  let closes := l.count rbraceC
  if opens > closes then l ++ List.replicate (opens - closes) rbraceC else l

/-- The top-level parsed payload must be an object for `data.items()` to
iterate; anything else raises and is swallowed by the outer handler. -/
def topObj? : JsonVal → Option (List (String × JsonVal))
  | .obj e => some e
  | _ => none

/-- The full locate-repair-parse cascade of `_parse_biomarkers` (lines
638-786): extraction of the payload, the trailing-separator subs, brace
balancing, the two retry subs, and the unterminated-string fixes; `none` means
the Python code raises a `JSONDecodeError` that the outer handler turns into an
empty result. -/
def pbData? (resp : List Char) : Option (List (String × JsonVal)) :=
  match pbJsonStr? resp with
  | none => none
  | some js0 =>
    let js1 := pyStrip js0
    let js2 := runSub trySub3 (runSub trySub2 (runSub trySub1 js1))
    let js3 := balanceClose js2
    match jsonLoadsTop js3 with
    | .ok d => topObj? d
    | .error _ =>
      let js4 := runSub trySub4 js3
      match jsonLoadsTop js4 with
      | .ok d => topObj? d
      | .error _ =>
        let js5 := runSub trySub5 js4
        match jsonLoadsTop js5 with
        | .ok d => topObj? d
        | .error fe =>
          if fe.unterminated then
            match pyRFind js5 '"' fe.pos with
            | none => none
            | some lq =>
              if lq > 0 ∧ js5.getD (lq - 1) ' ' ≠ '\\' then
                match pyFind js5 rbraceC fe.pos with
                | none => none
                | some nb =>
                  let fixed := js5.take nb ++ '"' :: js5.drop nb
                  match jsonLoadsTop fixed with
                  | .ok d => topObj? d
                  | .error _ =>
                    match pyRFind js5 ',' lq with
                    | none => none
                    | some lc =>
                      let fixed2 := balanceClose (js5.take lc ++ [rbraceC])
                      match jsonLoadsTop fixed2 with
                      | .ok d => topObj? d
                      | .error _ => none
              else none
          else none

/-- Record `Biomarker` from `backend/models/state.py`: one lab measurement. -/
structure Biomarker where
  name : String
  value : ℚ
  unit : String
  normal_range_min : Option ℚ
  normal_range_max : Option ℚ
  status : String
  interpretation : Option String
deriving DecidableEq

/-- Python `dict.get` on an object's fields. -/
def pyGet (fields : List (String × JsonVal)) (k : String) : Option JsonVal :=
  (fields.find? (fun e => e.1 == k)).map (fun e => e.2)

/-- Model of `value.get(k1, value.get(k2, dflt))`: first of two casings, with a default. -/
def getEither (fields : List (String × JsonVal)) (k1 k2 : String) (dflt : JsonVal) : JsonVal :=
  match pyGet fields k1 with
  | some v => v
  | none =>
    match pyGet fields k2 with
    | some v => v
    | none => dflt

/-- Conversion of one parsed object entry into a `Biomarker` (`triage_agent.py`
lines 788-810).  `.error` marks the places where the Python loop body raises:
`.lower()` on a non-string status, and pydantic validation of non-string
name/unit or an invalid interpretation; non-string value and normal-range
fields degrade silently, exactly as the guarded helpers do. -/
def toBiomarker (key : String) (fields : List (String × JsonVal)) : Except Unit Biomarker :=
  let vField := getEither fields "Value" "value" (.str "")
  let vu :=
    match vField with
    | .str s => extract_value_and_unit s
    | _ => ((0 : ℚ), "")
  let unitE : Except Unit String :=
    if vu.2 = "" then
      match pyGet fields "unit" with
      | none => .ok ""
      | some (.str u) => .ok u
      | some _ => .error ()
    else .ok vu.2
  let nrField := getEither fields "Normal_range" "normal_range" (.str "")
  let nr :=
    match nrField with
    | .str s => parse_normal_range s
    | _ => ((none : Option ℚ), (none : Option ℚ))
  let nameE : Except Unit String :=
    match pyGet fields "Name" with
    | some (.str s) => .ok s
    | some _ => .error ()
    | none =>
      match pyGet fields "name" with
      | some (.str s) => .ok s
      | some _ => .error ()
      | none => .ok key
  let statusE : Except Unit String :=
    match pyGet fields "Status" with
    | some (.str s) => .ok (lowerStr s)
    | some _ => .error ()
    | none =>
      match pyGet fields "status" with
      | some (.str s) => .ok (lowerStr s)
      | some _ => .error ()
      | none => .ok "normal"
  let interpE : Except Unit (Option String) :=
    match pyGet fields "Interpretation" with
    | some (.str s) => .ok (some s)
    | some .null => .ok none
    | some _ => .error ()
    | none =>
      match pyGet fields "interpretation" with
      | some (.str s) => .ok (some s)
      | some .null => .ok none
      | some _ => .error ()
      | none => .ok none
  match nameE, unitE, statusE, interpE with
  | .ok n, .ok u, .ok st, .ok it => .ok ⟨n, vu.1, u, nr.1, nr.2, st, it⟩
  | _, _, _, _ => .error ()

/-- The `for key, value in data.items()` loop (lines 788-810): non-object
values are skipped by the `isinstance` guard; a raising conversion aborts the
loop, and the outer handler then returns the biomarkers accumulated so far. -/
def buildLoop : List (String × JsonVal) → List (String × Biomarker) →
    List (String × Biomarker) × Option Unit
  | [], acc => (acc, none)
  | (k, v) :: rest, acc =>
    match v with
    | .obj fields =>
      match toBiomarker k fields with
      | .ok b => buildLoop rest (acc ++ [(k, b)])
      | .error e => (acc, some e)
    | _ => buildLoop rest acc

/-- Body of `TriageAgent._parse_biomarkers` on the character list of the LLM
response: every failure path of the Python function is caught at this boundary
and yields the biomarkers accumulated so far (the empty mapping when parsing
itself failed). -/
def parseBiomarkersCore (resp : List Char) : List (String × Biomarker) :=
  match pbData? resp with
  | none => []
  | some entries => (buildLoop entries []).1

/-- Method `TriageAgent._parse_biomarkers` (`triage_agent.py` lines 580-835). -/
def parse_biomarkers (s : String) : List (String × Biomarker) :=
  parseBiomarkersCore s.toList

/-- Record `SpecialistResult` from `backend/models/state.py`. -/
structure SpecialistResult where
  name : String
  specialty : String
  location : String
  distance : Option String
  rating : Option ℚ
  url : Option String
deriving DecidableEq

/-- The LangGraph `GraphState` TypedDict from `triage_agent.py` (lines 23-42).
Biomarkers form an insertion-ordered mapping; timestamps are the ISO strings
stored in the dict and are supplied to the nodes as an opaque `now`. -/
structure GraphState where
  session_id : String
  raw_text : String
  redacted_text : String
  lab_interpreted : Bool
  biomarkers : List (String × Biomarker)
  interpretation_summary : Option String
  specialist_needed : Bool
  specialist_condition : Option String
  specialist_type : Option String
  patient_zip : Option String
  specialist_search_approved : Bool
  specialist_results : List SpecialistResult
  safety_approved : Bool
  medical_disclaimer : Option String
  fhir_observation_id : Option String
  fhir_patient_id : Option String
  created_at : String
  updated_at : String
deriving DecidableEq

/-- The `specialist_map` literal of `TriageAgent._determine_specialist_type`
(lines 840-848), in its source order. -/
def specialist_map : List (String × String × String) :=
  [("glucose", "Endocrinologist", "Diabetes/Glucose Management"),
   ("cholesterol", "Cardiologist", "High Cholesterol"),
   ("creatinine", "Nephrologist", "Kidney Function"),
   ("hemoglobin", "Hematologist", "Blood Disorders"),
   ("tsh", "Endocrinologist", "Thyroid Function"),
   ("alt", "Hepatologist", "Liver Function"),
   ("ast", "Hepatologist", "Liver Function")]

/-- Test `biomarker.status in ["high", "low", "critical"]`. -/
def abnormalStatus (st : String) : Bool := st = "high" || st = "low" || st = "critical"

/-- The inner keyword loop of `_determine_specialist_type`: the first table
entry whose keyword occurs in the lower-cased biomarker key. -/
def kwMatch (biomarkerName : String) : Option (String × String) :=
  (specialist_map.find? (fun e => strContains (lowerStr biomarkerName) e.1)).map (fun e => e.2)

/-- Method `TriageAgent._determine_specialist_type` (lines 837-858): scan the
biomarker mapping in order; the first entry that is abnormal and whose key
matches a keyword decides; otherwise the default pair. -/
def determine_specialist_type : List (String × Biomarker) → String × String
  | [] => ("Primary Care Physician", "Abnormal Lab Values")
  | (k, b) :: rest =>
    if abnormalStatus b.status then
      match kwMatch k with
      | some p => p
      | none => determine_specialist_type rest
    else determine_specialist_type rest

/-- Python `str.split(sep)` for a one-character separator. -/
def splitOnChar (sep : Char) : List Char → List (List Char)
  | [] => [[]]
  | c :: r =>
    let rest := splitOnChar sep r
    if c = sep then [] :: rest
    else
      match rest with
      | h :: t => (c :: h) :: t
      | [] => [[c]]

/-- The `biomarker_keywords` literal of `_interpret_lab_node` (lines 431-435). -/
def biomarkerKeywords : List String :=
  ["ANALYTES", "RESULTS", "Test", "Biomarker", "Lab",
   "Sodium", "Potassium", "Glucose", "Hemoglobin", "RBC",
   "Creatinine", "Cholesterol", "ALT", "AST", "HbA1c",
   "Complete Blood Count", "Biochemistry", "Chemistry",
   "HEMATOLOGY", "CBC", "LIPID", "LIVER", "KIDNEY", "THYROID"]

/-- The unit substrings tested at line 445. -/
def unitKeywords : List String :=
  ["mmol/L", "g/dL", "U/L", "%", "mg/L", "/cmm", "/hpf", "fL", "pg", "ng/mL", "mIU/L"]

/-- The long-report preprocessing of `_interpret_lab_node` (lines 424-463):
for reports over 2000 characters, keep only lines that look like biomarker
data, join them, and cap the result at 7000 characters; shorter reports (and
reports with no relevant lines) pass through unchanged. -/
def preprocessLab (labText : List Char) : List Char :=
  if labText.length > 2000 then
    let lines := splitOnChar '\n' labText
    let step : (Bool × List (List Char)) → List Char → (Bool × List (List Char)) := fun st line =>
      let lineUpper := line.map Char.toUpper
      let inSec := st.1 || biomarkerKeywords.any (fun kw => hasSub (kw.toList.map Char.toUpper) lineUpper)
      let keep :=
        if inSec || line.any Char.isDigit then
          if unitKeywords.any (fun u => hasSub u.toList line) then true
          else
            let stripped := pyStrip line
            if stripped.length > 0 ∧ ¬ (leadsWith ['#'] stripped = true) then
              line.contains '|' || line.contains '\t' || line.any Char.isDigit
            else false
        else false
      (inSec, if keep then st.2 ++ [line] else st.2)
    let relevant := (lines.foldl step (false, [])).2
    if relevant.isEmpty then labText
    else
      let processed := List.intercalate ['\n'] relevant
      if processed.length > 7000 then processed.take 7000 else processed
  else labText

/-- The biomarker-count summary built at lines 504-511. -/
def summaryFor (bs : List (String × Biomarker)) : String :=
  let abnormalCount := (bs.filter (fun p => p.2.status ≠ "normal")).length
  "Successfully analyzed " ++ toString bs.length ++ " biomarker(s). " ++
    (if abnormalCount = 0 then "All values are within normal ranges."
     else toString abnormalCount ++ " value(s) require attention.")

/-- Method `TriageAgent._interpret_lab_node` (lines 357-518).  The language model is
the black-box parameter `llm` (processed report text in, free-form response
out); `now` stands for `datetime.now().isoformat()`. -/
def interpret_lab_node (llm : String → String) (now : String) (s : GraphState) : GraphState :=
  let processed := preprocessLab s.redacted_text.toList
  let response := llm processed.asString
  let biomarkers := parse_biomarkers response
  let specialist_needed := biomarkers.any (fun p => abnormalStatus p.2.status)
  let st :=
    if specialist_needed then
      let p := determine_specialist_type biomarkers
      (some p.1, some p.2)
    else ((none : Option String), (none : Option String))
  let summary :=
    if ¬ biomarkers.isEmpty then summaryFor biomarkers
    else if response.toList.length > 200 then (response.toList.take 200).asString ++ "..."
    else response
  { s with
    biomarkers := biomarkers,
    lab_interpreted := true,
    specialist_needed := specialist_needed,
    specialist_type := st.1,
    specialist_condition := st.2,
    interpretation_summary := some summary,
    updated_at := now }

/-- Python truthiness of an `Optional[str]`: `None` and the empty string are
falsy. -/
def pyTruthyStr : Option String → Bool
  | none => false
  | some s => s ≠ ""

/-- The type of the specialist lookup collaborator
(`SpecialistScout.search_specialists`): specialty, zip code and optional
condition in; either a result list or a raised exception out. -/
abbrev Lookup := String → String → Option String → Except Unit (List SpecialistResult)

/-- Method `SpecialistScout._mock_search` (`specialist_scout.py` lines 77-110): the
stub three-entry result set annotated with the requested specialty and zip. -/
def mock_search (specialty zip_code : String) : List SpecialistResult :=
  [⟨"Dr. Sarah Johnson, MD", specialty, zip_code ++ " Area", some "2.3 miles",
      some (mkRat 24 5), some "https://www.healthgrades.com/physician/dr-sarah-johnson"⟩,
   ⟨"Dr. Michael Chen, MD", specialty, zip_code ++ " Area", some "4.1 miles",
      some (mkRat 23 5), some "https://www.healthgrades.com/physician/dr-michael-chen"⟩,
   ⟨"Dr. Emily Rodriguez, DO", specialty, zip_code ++ " Area", some "5.7 miles",
      some (mkRat 49 10), some "https://www.healthgrades.com/physician/dr-emily-rodriguez"⟩]

/-- The stub lookup: `search_specialists` backed by `_mock_search`, which
always succeeds. -/
def stubLookup : Lookup := fun specialty zip _ => .ok (mock_search specialty zip)

/-- Method `TriageAgent._specialist_scout_node` (lines 520-550): a no-op unless the
search is approved and both specialist type and patient zip are truthy; a
raising lookup is caught, leaving the state untouched. -/
def specialist_scout_node (lookup : Lookup) (now : String) (s : GraphState) : GraphState :=
  if ¬ s.specialist_search_approved then s
  else if ¬ pyTruthyStr s.specialist_type ∨ ¬ pyTruthyStr s.patient_zip then s
  else
    match lookup (s.specialist_type.getD "") (s.patient_zip.getD "00000") s.specialist_condition with
    | .ok results => { s with specialist_results := results, updated_at := now }
    | .error _ => s

/-- The fixed disclaimer template of `_safety_audit_node` (lines 556-566). -/
def medicalDisclaimerText : String :=
  "⚠️ MEDICAL DISCLAIMER ⚠️\n\nThis interpretation is for informational purposes only and does not constitute medical advice.\nThe results provided are based on automated analysis and should be reviewed by a licensed healthcare provider.\n\n1. This tool is not a substitute for professional medical diagnosis or treatment.\n2. Always consult with a qualified healthcare provider for medical decisions.\n3. In case of emergency, contact emergency services immediately.\n4. Lab values may vary based on individual circumstances and testing methods.\n\nGenerated by MediStream Agentic Triage System - For Educational/Portfolio Purposes Only."

/-- Method `TriageAgent._safety_audit_node` (lines 552-572): deterministic, consults
no collaborator, always approves and writes the fixed disclaimer. -/
def safety_audit_node (now : String) (s : GraphState) : GraphState :=
  { s with
    medical_disclaimer := some medicalDisclaimerText,
    safety_approved := true,
    updated_at := now }

/-- Method `TriageAgent._should_search_specialist` (lines 574-578). -/
def should_search_specialist (s : GraphState) : Bool := s.specialist_needed

/-- One full pass of the compiled LangGraph workflow
(`_build_graph`, lines 72-108): init (identity) → interpreter → conditional
(`search` / `skip`) → optional specialist scout → safety audit → END.  This is
what `graph.astream`/`graph.ainvoke` execute when given an input state: with a
non-`None` input, LangGraph starts a new pass from the entry point. -/
def runGraph (llm : String → String) (lookup : Lookup) (now : String) (s : GraphState) : GraphState :=
  let s1 := interpret_lab_node llm now s
  let s2 := if should_search_specialist s1 then specialist_scout_node lookup now s1 else s1
  safety_audit_node now s2

/-- Status strings returned by `run_interpretation`. -/
inductive RunStatus where
  | already_completed : RunStatus
  | completed : RunStatus
deriving DecidableEq

/-- Method `TriageAgent.run_interpretation` (lines 126-180) on the stored state of an
existing session: if `lab_interpreted` is already set, return the no-op
"already_completed" result without touching the stored state; otherwise stream
the graph and return the final state, which the checkpointer persists. -/
def run_interpretation (llm : String → String) (lookup : Lookup) (now : String)
    (s : GraphState) : RunStatus × GraphState :=
  if s.lab_interpreted then (.already_completed, s)
  else (.completed, runGraph llm lookup now s)

/-- Method `TriageAgent.approve_specialist_search` (lines 288-314) on the stored state
of an existing session: set the approval flag, stamp `updated_at`, and call
`graph.ainvoke` with the full state as input — which, being a non-`None`
input, runs the workflow again from the entry point.  Returns the state the
checkpointer holds afterwards. -/
def approve_specialist_search (llm : String → String) (lookup : Lookup) (now : String)
    (s : GraphState) : GraphState :=
  let s1 := { s with specialist_search_approved := true, updated_at := now }
  runGraph llm lookup now s1

/-- A biomarker with an abnormal (high) status, used as a sample value. -/
def bioGlucoseHigh : Biomarker := ⟨"Glucose", 120, "mg/dL", some 70, some 100, "high", none⟩

/-- A biomarker with a normal status, used as a sample value. -/
def bioTshNormal : Biomarker := ⟨"TSH", 2, "mIU/L", some 1, some 4, "normal", none⟩

/-- A session that has completed interpretation and awaits specialist-search
approval: `lab_interpreted` is set, a referral is flagged, the search is not
yet approved, and no results are stored. -/
def sessionInterpreted : GraphState :=
  ⟨"s1", "", "lab text", true, [("Glucose", bioGlucoseHigh)],
    some "Successfully analyzed 1 biomarker(s). 1 value(s) require attention.",
    true, some "Diabetes/Glucose Management", some "Endocrinologist", some "10001",
    false, [], false, none, none, none, "t0", "t0"⟩

/-- A freshly created session: uploaded text, nothing interpreted yet. -/
def sessionFresh : GraphState :=
  ⟨"s3", "", "lab text", false, [], none, false, none, none, some "10001",
    false, [], false, none, none, none, "t0", "t0"⟩

/-- An object entry converts cleanly: whenever its value is an object, the
biomarker conversion succeeds. -/
def convOk (q : String × JsonVal) : Prop :=
  ∀ f, q.2 = JsonVal.obj f → ∃ b, toBiomarker q.1 f = Except.ok b

/-- What the conversion loop contributes for one entry: the built biomarker
for a convertible object, nothing for a non-object. -/
def convOf (q : String × JsonVal) : Option (String × Biomarker) :=
  match q.2 with
  | JsonVal.obj f =>
    match toBiomarker q.1 f with
    | Except.ok b => some (q.1, b)
    | Except.error _ => none
  | _ => none

/-- Input for the partial-extraction scenario: the payload parses, its first
entry converts, and its second has a non-string `Status` that makes the
conversion loop raise mid-iteration. -/
def c10input : String :=
  "\x7b\"A\": \x7b\"Name\":\"A\",\"Value\":\"1 g\",\"Status\":\"high\"\x7d, \"B\": \x7b\"Name\":\"B\",\"Status\": 5\x7d\x7d"

/-- Input whose first top-level entry is not an object: the loop skips it and
still builds the later biomarker. -/
def c10skip : String :=
  "\x7b\"C\": 3, \"A\": \x7b\"Name\":\"A\",\"Value\":\"1 g\",\"Status\":\"high\"\x7d\x7d"

deriving instance DecidableEq for Except

/-- The three top-level entries of `c10input`'s payload, as parsed. -/
def c10entries : List (String × JsonVal) :=
  [("A", JsonVal.obj [("Name", JsonVal.str "A"), ("Value", JsonVal.str "1 g"),
      ("Status", JsonVal.str "high")]),
   ("C", JsonVal.num (mkRat 3 1)),
   ("B", JsonVal.obj [("Name", JsonVal.str "B"), ("Status", JsonVal.num (mkRat 5 1))])]

example : jsonLoadsTop "\x7b\"a\": \"bc\"\x7d".toList = .ok (.obj [("a", .str "bc")]) := rfl

example : jsonLoadsTop "\x7b\"a\": \"bc".toList = .error ⟨true, 6⟩ := rfl

example : jsonLoadsTop "\x7b\"a\": 1,\x7d".toList = .error ⟨false, 8⟩ := rfl

example : jsonLoadsTop "\x7b\"a\": -1.5e2, \"b\": [true, null]\x7d".toList =
    .ok (.obj [("a", .num (mkRat (-150) 1)), ("b", .arr [.bool true, .null])]) := rfl

theorem takeWhile_append_cons {p : Char → Bool} {a r : List Char} {x : Char}
    (ha : ∀ c ∈ a, p c = true) (hx : p x = false) :
    (a ++ x :: r).takeWhile p = a := by
  induction a with
  | nil =>
    rw [List.nil_append]
    exact List.takeWhile_cons_of_neg (by simp [hx])
  | cons y t ih =>
    rw [List.cons_append, List.takeWhile_cons_of_pos (ha y (List.mem_cons_self y t)),
      ih (fun c hc => ha c (List.mem_cons_of_mem y hc))]

theorem dropWhile_append_cons {p : Char → Bool} {a r : List Char} {x : Char}
    (ha : ∀ c ∈ a, p c = true) (hx : p x = false) :
    (a ++ x :: r).dropWhile p = x :: r := by
  induction a with
  | nil =>
    rw [List.nil_append]
    exact List.dropWhile_cons_of_neg (by simp [hx])
  | cons y t ih =>
    rw [List.cons_append, List.dropWhile_cons_of_pos (ha y (List.mem_cons_self y t)),
      ih (fun c hc => ha c (List.mem_cons_of_mem y hc))]

theorem takeWhile_all_pos {p : Char → Bool} : ∀ {l : List Char},
    (∀ c ∈ l, p c = true) → l.takeWhile p = l := by
  intro l
  induction l with
  | nil => intro _; rfl
  | cons y t ih =>
    intro h
    rw [List.takeWhile_cons_of_pos (h y (List.mem_cons_self y t)),
      ih (fun c hc => h c (List.mem_cons_of_mem y hc))]

theorem dropWhile_all_pos {p : Char → Bool} : ∀ {l : List Char},
    (∀ c ∈ l, p c = true) → l.dropWhile p = [] := by
  intro l
  induction l with
  | nil => intro _; rfl
  | cons y t ih =>
    intro h
    rw [List.dropWhile_cons_of_pos (h y (List.mem_cons_self y t)),
      ih (fun c hc => h c (List.mem_cons_of_mem y hc))]

theorem takeWhile_all_neg {p : Char → Bool} : ∀ {l : List Char},
    (∀ c ∈ l, p c = false) → l.takeWhile p = [] := by
  intro l
  cases l with
  | nil => intro _; rfl
  | cons y t =>
    intro h
    exact List.takeWhile_cons_of_neg (by simp [h y (List.mem_cons_self y t)])

theorem dropWhile_append_all {p : Char → Bool} {a b : List Char}
    (ha : ∀ c ∈ a, p c = true) : (a ++ b).dropWhile p = b.dropWhile p := by
  induction a with
  | nil => rfl
  | cons y t ih =>
    rw [List.cons_append, List.dropWhile_cons_of_pos (ha y (List.mem_cons_self y t)),
      ih (fun c hc => ha c (List.mem_cons_of_mem y hc))]

theorem mem_of_mem_dropWhile {p : Char → Bool} {c : Char} :
    ∀ {l : List Char}, c ∈ l.dropWhile p → c ∈ l := by
  intro l
  induction l with
  | nil => intro h; exact h
  | cons y t ih =>
    intro h
    rw [List.dropWhile_cons] at h
    by_cases hy : p y = true
    · simp only [hy, if_true] at h
      exact List.mem_cons_of_mem y (ih h)
    · simp only [hy, if_false] at h
      exact h

theorem digit_facts {c : Char} (h : c.isDigit = true) :
    isPyWs c = false ∧ isOpC c = false ∧ isDigitDotC c = true ∧ c ≠ '-' ∧ c ≠ '.' := by
  refine ⟨?_, ?_, by simp [isDigitDotC, h], ?_, ?_⟩
  · by_contra hw
    rw [Bool.not_eq_false] at hw
    simp only [isPyWs, Bool.or_eq_true, decide_eq_true_eq] at hw
    rcases hw with ((((rfl | rfl) | rfl) | rfl) | rfl) | rfl <;> exact absurd h (by decide)
  · by_contra hw
    rw [Bool.not_eq_false] at hw
    simp only [isOpC, Bool.or_eq_true, decide_eq_true_eq] at hw
    rcases hw with (rfl | rfl) | rfl <;> exact absurd h (by decide)
  · intro e; rw [e] at h; exact absurd h (by decide)
  · intro e; rw [e] at h; exact absurd h (by decide)

theorem ws_facts {c : Char} (h : isPyWs c = true) :
    isOpC c = false ∧ isDigitDotC c = false ∧ c ≠ '-' := by
  simp only [isPyWs, Bool.or_eq_true, decide_eq_true_eq] at h
  rcases h with ((((rfl | rfl) | rfl) | rfl) | rfl) | rfl <;> exact ⟨by decide, by decide, by decide⟩

theorem op_facts {c : Char} (h : isOpC c = true) :
    isPyWs c = false ∧ isDigitDotC c = false ∧ c ≠ '-' := by
  simp only [isOpC, Bool.or_eq_true, decide_eq_true_eq] at h
  rcases h with (rfl | rfl) | rfl <;> exact ⟨by decide, by decide, by decide⟩

theorem floatOfDigits {d : List Char} (hd : ∀ c ∈ d, c.isDigit = true) (hd0 : d ≠ []) :
    floatOfDotRun? d = some ((digitsToNat d : ℚ)) := by
  have h1 : d.takeWhile (fun c => decide (c ≠ '.')) = d :=
    takeWhile_all_pos (fun c hc => by simp [(digit_facts (hd c hc)).2.2.2.2])
  have h2 : d.dropWhile (fun c => decide (c ≠ '.')) = [] :=
    dropWhile_all_pos (fun c hc => by simp [(digit_facts (hd c hc)).2.2.2.2])
  have h3 : d.isEmpty = false := by
    cases d with
    | nil => exact absurd rfl hd0
    | cons x t => rfl
  unfold floatOfDotRun? decParts?
  rw [h2, h1]
  simp [h3, Rat.mkRat_one]

theorem tryRangeAt_none_no_hyphen {l : List Char} (h : '-' ∉ l) : tryRangeAt l = none := by
  cases h1 : (l.takeWhile isDigitDotC).isEmpty with
  | true => simp [tryRangeAt, h1]
  | false =>
    cases hrest : (l.dropWhile isDigitDotC).dropWhile isPyWs with
    | nil => simp [tryRangeAt, h1, hrest]
    | cons c t =>
      have hc : c ∈ l :=
        mem_of_mem_dropWhile (mem_of_mem_dropWhile (by rw [hrest]; exact List.mem_cons_self c t))
      have hne : ¬ c = '-' := fun e => h (e ▸ hc)
      simp [tryRangeAt, h1, hrest, hne]

theorem rangeSearch_none_no_hyphen {l : List Char} (h : '-' ∉ l) : rangeSearch l = none := by
  induction l with
  | nil => rfl
  | cons a t ih =>
    have h2 : '-' ∉ t := fun hm => h (List.mem_cons_of_mem a hm)
    simp [rangeSearch, tryRangeAt_none_no_hyphen h, ih h2]

theorem tryRangeAt_none_no_digitdot {l : List Char} (h : ∀ c ∈ l, isDigitDotC c = false) :
    tryRangeAt l = none := by
  simp [tryRangeAt, takeWhile_all_neg h]

theorem rangeSearch_none_no_digitdot {l : List Char} (h : ∀ c ∈ l, isDigitDotC c = false) :
    rangeSearch l = none := by
  induction l with
  | nil => rfl
  | cons a t ih =>
    have h2 : ∀ c ∈ t, isDigitDotC c = false := fun c hm => h c (List.mem_cons_of_mem a hm)
    simp [rangeSearch, tryRangeAt_none_no_digitdot h, ih h2]

theorem trySingleAt_none_no_digitdot {l : List Char} (h : ∀ c ∈ l, isDigitDotC c = false) :
    trySingleAt l = none := by
  have hsub : ∀ c ∈ ((l.dropWhile isOpC).dropWhile isPyWs), isDigitDotC c = false :=
    fun c hc => h c (mem_of_mem_dropWhile (mem_of_mem_dropWhile hc))
  simp [trySingleAt, takeWhile_all_neg hsub]

theorem singleSearch_none_no_digitdot {l : List Char} (h : ∀ c ∈ l, isDigitDotC c = false) :
    singleSearch l = none := by
  induction l with
  | nil => rfl
  | cons a t ih =>
    have h2 : ∀ c ∈ t, isDigitDotC c = false := fun c hm => h c (List.mem_cons_of_mem a hm)
    simp [singleSearch, trySingleAt_none_no_digitdot h, ih h2]

theorem pnr_no_digitdot {l : List Char} (h : ∀ c ∈ l, isDigitDotC c = false) :
    pnrCore l = (none, none) := by
  cases l with
  | nil => rfl
  | cons a t =>
    simp [pnrCore, rangeSearch_none_no_digitdot h, singleSearch_none_no_digitdot h]

theorem pnr_hyphen {a b : List Char} (ha : ∀ c ∈ a, c.isDigit = true)
    (hb : ∀ c ∈ b, c.isDigit = true) (ha0 : a ≠ []) (hb0 : b ≠ []) :
    pnrCore (a ++ '-' :: b) = (some ((digitsToNat a : ℚ)), some ((digitsToNat b : ℚ))) := by
  obtain ⟨ah, at', rfl⟩ := List.exists_cons_of_ne_nil ha0
  obtain ⟨bh, bt, rfl⟩ := List.exists_cons_of_ne_nil hb0
  have hAdd : ∀ c ∈ ah :: at', isDigitDotC c = true := fun c hc => (digit_facts (ha c hc)).2.2.1
  have h1 : ((ah :: at') ++ '-' :: bh :: bt).takeWhile isDigitDotC = ah :: at' :=
    takeWhile_append_cons hAdd (by decide)
  have h2 : ((ah :: at') ++ '-' :: bh :: bt).dropWhile isDigitDotC = '-' :: bh :: bt :=
    dropWhile_append_cons hAdd (by decide)
  have h3 : ('-' :: bh :: bt).dropWhile isPyWs = '-' :: bh :: bt :=
    List.dropWhile_cons_of_neg (by decide)
  have h4 : (bh :: bt).dropWhile isPyWs = bh :: bt :=
    List.dropWhile_cons_of_neg (by simp [(digit_facts (hb bh (List.mem_cons_self bh bt))).1])
  have h5 : (bh :: bt).takeWhile isDigitDotC = bh :: bt :=
    takeWhile_all_pos (fun c hc => (digit_facts (hb c hc)).2.2.1)
  have htry : tryRangeAt ((ah :: at') ++ '-' :: bh :: bt) = some (ah :: at', bh :: bt) := by
    unfold tryRangeAt
    rw [h1, h2, h3]
    simp [h4, h5]
  have hsearch : rangeSearch ((ah :: at') ++ '-' :: bh :: bt) = some (ah :: at', bh :: bt) := by
    rw [List.cons_append, rangeSearch, ← List.cons_append, htry]
  rw [List.cons_append] at hsearch
  simp [pnrCore, hsearch, floatOfDigits ha ha0, floatOfDigits hb hb0]

theorem trySingleAt_eval {ops sp d : List Char} (hops : ∀ c ∈ ops, isOpC c = true)
    (hsp : ∀ c ∈ sp, isPyWs c = true) (hd : ∀ c ∈ d, c.isDigit = true) (hd0 : d ≠ []) :
    trySingleAt (ops ++ (sp ++ d)) = some (ops, d) := by
  obtain ⟨dh, dt, rfl⟩ := List.exists_cons_of_ne_nil hd0
  obtain ⟨x, rest, hx, hxop⟩ :
      ∃ x rest, sp ++ dh :: dt = x :: rest ∧ isOpC x = false := by
    cases sp with
    | nil => exact ⟨dh, dt, rfl, (digit_facts (hd dh (List.mem_cons_self dh dt))).2.1⟩
    | cons sh st =>
      exact ⟨sh, st ++ dh :: dt, by simp, (ws_facts (hsp sh (List.mem_cons_self sh st))).1⟩
  have h1 : (ops ++ (sp ++ dh :: dt)).takeWhile isOpC = ops := by
    rw [hx]; exact takeWhile_append_cons hops hxop
  have h2 : (ops ++ (sp ++ dh :: dt)).dropWhile isOpC = sp ++ dh :: dt := by
    rw [hx]; exact dropWhile_append_cons hops hxop
  have h3 : (sp ++ dh :: dt).dropWhile isPyWs = dh :: dt := by
    rw [dropWhile_append_all hsp]
    exact List.dropWhile_cons_of_neg
      (by simp [(digit_facts (hd dh (List.mem_cons_self dh dt))).1])
  have h4 : (dh :: dt).takeWhile isDigitDotC = dh :: dt :=
    takeWhile_all_pos (fun c hc => (digit_facts (hd c hc)).2.2.1)
  unfold trySingleAt
  rw [h1, h2, h3]
  simp [h4]

theorem singleSearch_of_head {l : List Char} {g : List Char × List Char}
    (hne : l ≠ []) (h : trySingleAt l = some g) : singleSearch l = some g := by
  obtain ⟨x, t, rfl⟩ := List.exists_cons_of_ne_nil hne
  simp [singleSearch, h]

theorem op_family_no_hyphen {ops sp d : List Char} (hops : ∀ c ∈ ops, isOpC c = true)
    (hsp : ∀ c ∈ sp, isPyWs c = true) (hd : ∀ c ∈ d, c.isDigit = true) :
    '-' ∉ ops ++ (sp ++ d) := by
  intro hm
  rcases List.mem_append.1 hm with h1 | h23
  · exact absurd (hops _ h1) (by decide)
  · rcases List.mem_append.1 h23 with h2 | h3
    · exact absurd (hsp _ h2) (by decide)
    · exact absurd (hd _ h3) (by decide)

theorem pnr_single {ops sp d : List Char} (hops : ∀ c ∈ ops, isOpC c = true)
    (hsp : ∀ c ∈ sp, isPyWs c = true) (hd : ∀ c ∈ d, c.isDigit = true) (hd0 : d ≠ []) :
    pnrCore (ops ++ (sp ++ d)) =
      (if ops = ['<'] then (none, some ((digitsToNat d : ℚ)))
       else if ops = ['>'] then (some ((digitsToNat d : ℚ)), none)
       else (some ((digitsToNat d : ℚ)), some ((digitsToNat d : ℚ)))) := by
  have hne : ops ++ (sp ++ d) ≠ [] := by
    intro h
    rcases List.append_eq_nil.1 h with ⟨-, h2⟩
    exact hd0 (List.append_eq_nil.1 h2).2
  have hr : rangeSearch (ops ++ (sp ++ d)) = none :=
    rangeSearch_none_no_hyphen (op_family_no_hyphen hops hsp hd)
  have hs : singleSearch (ops ++ (sp ++ d)) = some (ops, d) :=
    singleSearch_of_head hne (trySingleAt_eval hops hsp hd hd0)
  obtain ⟨x, t, hxt⟩ := List.exists_cons_of_ne_nil hne
  have hie : (ops ++ (sp ++ d)).isEmpty = false := by rw [hxt]; rfl
  unfold pnrCore
  rw [hie, hr, hs]
  simp [floatOfDigits hd hd0]

/-- C1: `run` is idempotent with respect to interpretation: for every session
whose `lab_interpreted` flag is already true, a `run` invocation returns the
no-op "already completed" result and mutates nothing — in particular the
stored biomarkers mapping and `interpretation_summary` are unchanged. -/
theorem claim_C1 (llm : String → String) (lookup : Lookup) (now : String) (s : GraphState)
    (h : s.lab_interpreted = true) :
    run_interpretation llm lookup now s = (RunStatus.already_completed, s) ∧
    (run_interpretation llm lookup now s).2.biomarkers = s.biomarkers ∧
    (run_interpretation llm lookup now s).2.interpretation_summary = s.interpretation_summary := by
  unfold run_interpretation
  rw [h]
  simp

/-- Witness for C1 at a concrete interpreted session. -/
theorem claim_C1_witness :
    run_interpretation (fun _ => "second response") stubLookup "t1" sessionInterpreted =
      (RunStatus.already_completed, sessionInterpreted) :=
  (claim_C1 (fun _ => "second response") stubLookup "t1" sessionInterpreted rfl).1

/-- C7: the audit stage is deterministic and makes no external calls (it is a
function of the state and timestamp only); it always sets
`safety_approved = true` and writes the fixed non-null disclaimer template
while leaving the interpretation and lookup results intact, and every run that
performs interpretation completes with `safety_approved = true` and a non-null
`medical_disclaimer`. -/
theorem claim_C7 (llm : String → String) (lookup : Lookup) (now : String) (s : GraphState) :
    (safety_audit_node now s).safety_approved = true ∧
    (safety_audit_node now s).medical_disclaimer = some medicalDisclaimerText ∧
    medicalDisclaimerText ≠ "" ∧
    (safety_audit_node now s).biomarkers = s.biomarkers ∧
    (safety_audit_node now s).interpretation_summary = s.interpretation_summary ∧
    (safety_audit_node now s).specialist_results = s.specialist_results ∧
    (s.lab_interpreted = false →
      (run_interpretation llm lookup now s).1 = RunStatus.completed ∧
      (run_interpretation llm lookup now s).2.safety_approved = true ∧
      (run_interpretation llm lookup now s).2.medical_disclaimer = some medicalDisclaimerText ∧
      (run_interpretation llm lookup now s).2.medical_disclaimer ≠ none) := by
  refine ⟨rfl, rfl, by decide, rfl, rfl, rfl, ?_⟩
  intro h
  unfold run_interpretation
  rw [h]
  simp [runGraph, safety_audit_node]

/-- Witness for C7 at a concrete fresh session. -/
theorem claim_C7_witness :
    (run_interpretation (fun _ => "resp") stubLookup "t1" sessionFresh).2.safety_approved = true ∧
    (run_interpretation (fun _ => "resp") stubLookup "t1" sessionFresh).2.medical_disclaimer =
      some medicalDisclaimerText :=
  ⟨((claim_C7 (fun _ => "resp") stubLookup "t1" sessionFresh).2.2.2.2.2.2 rfl).2.1,
   ((claim_C7 (fun _ => "resp") stubLookup "t1" sessionFresh).2.2.2.2.2.2 rfl).2.2.1⟩

/-- C4: the specialist-lookup stage returns the session unchanged unless the
search is approved and both `specialist_type` and `patient_zip` are truthy;
when it does invoke the lookup, a raising lookup is swallowed and the session
is returned unchanged; consequently a session with `specialist_needed = true`
and `specialist_search_approved = false` (and no stored results) still has an
empty `specialist_results` after `run`. -/
theorem claim_C4 :
    (∀ (lookup : Lookup) (now : String) (s : GraphState),
      s.specialist_search_approved = false ∨ pyTruthyStr s.specialist_type = false ∨
        pyTruthyStr s.patient_zip = false →
      specialist_scout_node lookup now s = s) ∧
    (∀ (lookup : Lookup) (now : String) (s : GraphState),
      lookup (s.specialist_type.getD "") (s.patient_zip.getD "00000") s.specialist_condition =
        Except.error () →
      specialist_scout_node lookup now s = s) ∧
    (∀ (llm : String → String) (lookup : Lookup) (now : String) (s : GraphState),
      s.specialist_needed = true → s.specialist_search_approved = false →
      s.specialist_results = [] →
      (run_interpretation llm lookup now s).2.specialist_results = []) := by
  refine ⟨?_, ?_, ?_⟩
  · intro lookup now s h
    unfold specialist_scout_node
    rcases h with h | h | h <;> simp [h]
  · intro lookup now s h
    unfold specialist_scout_node
    rw [h]
    simp
  · intro llm lookup now s hneed happ hres
    unfold run_interpretation
    by_cases hlab : s.lab_interpreted = true
    · rw [hlab]; simpa using hres
    · rw [Bool.not_eq_true] at hlab
      rw [hlab]
      simp only [Bool.false_eq_true, if_false]
      show (runGraph llm lookup now s).specialist_results = []
      unfold runGraph
      have happ2 : (interpret_lab_node llm now s).specialist_search_approved = false := by
        simp [interpret_lab_node, happ]
      have hres2 : (interpret_lab_node llm now s).specialist_results = [] := by
        simp [interpret_lab_node, hres]
      by_cases hsn : should_search_specialist (interpret_lab_node llm now s) = true
      · simp only [hsn, if_true]
        simp [safety_audit_node, specialist_scout_node, happ2, hres2]
      · rw [Bool.not_eq_true] at hsn
        simp only [hsn, Bool.false_eq_true, if_false]
        simp [safety_audit_node, hres2]

/-- Witness for C4 at concrete states: an unapproved scout stage is the
identity, a raising lookup is swallowed, and a full run on an unapproved
session leaves the results empty. -/
theorem claim_C4_witness :
    specialist_scout_node stubLookup "t1" sessionInterpreted = sessionInterpreted ∧
    specialist_scout_node (fun _ _ _ => Except.error ()) "t1"
        { sessionInterpreted with specialist_search_approved := true } =
      { sessionInterpreted with specialist_search_approved := true } ∧
    (run_interpretation (fun _ => "resp") stubLookup "t1" sessionInterpreted).2.specialist_results = [] :=
  ⟨claim_C4.1 stubLookup "t1" sessionInterpreted (Or.inl rfl),
   claim_C4.2.1 (fun _ _ _ => Except.error ()) "t1"
     { sessionInterpreted with specialist_search_approved := true } rfl,
   claim_C4.2.2 (fun _ => "resp") stubLookup "t1" sessionInterpreted rfl rfl rfl⟩

/-- C5: the referral classifier scans the biomarker mapping in order; the
first entry that is abnormal (high/low/critical) and whose stored name matches
a keyword of the ordered table (case-insensitive substring match, first
keyword winning) decides the specialist/condition pair; if no abnormal entry
matches any keyword — in particular when there are no abnormal entries — the
default pair is returned.  Being a pure function of the mapping, it is
deterministic and has no side effects.  The keyword table is exercised
pairwise on concrete inputs. -/
theorem claim_C5 :
    (∀ bs : List (String × Biomarker),
      (∀ p ∈ bs, abnormalStatus p.2.status = false ∨ kwMatch p.1 = none) →
      determine_specialist_type bs = ("Primary Care Physician", "Abnormal Lab Values")) ∧
    (∀ (pre rest : List (String × Biomarker)) (k : String) (b : Biomarker) (sp cond : String),
      (∀ p ∈ pre, abnormalStatus p.2.status = false ∨ kwMatch p.1 = none) →
      abnormalStatus b.status = true → kwMatch k = some (sp, cond) →
      determine_specialist_type (pre ++ (k, b) :: rest) = (sp, cond)) ∧
    determine_specialist_type [("glucose", bioGlucoseHigh), ("tsh", bioTshNormal)] =
      ("Endocrinologist", "Diabetes/Glucose Management") ∧
    determine_specialist_type [("glucose", ⟨"Glucose", 90, "mg/dL", some 70, some 100, "normal", none⟩), ("tsh", bioTshNormal)] =
      ("Primary Care Physician", "Abnormal Lab Values") ∧
    determine_specialist_type [("Serum Cholesterol", ⟨"Cholesterol", 250, "mg/dL", none, some 200, "high", none⟩)] =
      ("Cardiologist", "High Cholesterol") ∧
    determine_specialist_type [("creatinine", ⟨"Creatinine", 2, "mg/dL", some 1, some 2, "high", none⟩)] =
      ("Nephrologist", "Kidney Function") ∧
    determine_specialist_type [("hemoglobin", ⟨"Hemoglobin", 10, "g/dL", some 13, some 17, "low", none⟩)] =
      ("Hematologist", "Blood Disorders") ∧
    determine_specialist_type [("TSH", ⟨"TSH", 9, "mIU/L", some 1, some 4, "critical", none⟩)] =
      ("Endocrinologist", "Thyroid Function") ∧
    determine_specialist_type [("alt", ⟨"ALT", 90, "U/L", none, some 41, "high", none⟩)] =
      ("Hepatologist", "Liver Function") ∧
    determine_specialist_type [("ast", ⟨"AST", 90, "U/L", none, some 40, "high", none⟩)] =
      ("Hepatologist", "Liver Function") := by
  refine ⟨?_, ?_, by decide, by decide, by decide, by decide, by decide, by decide, by decide, by decide⟩
  · intro bs h
    induction bs with
    | nil => rfl
    | cons p t ih =>
      obtain ⟨k, b⟩ := p
      have hrest := fun q hq => h q (List.mem_cons_of_mem _ hq)
      rcases h (k, b) (List.mem_cons_self _ _) with habn | hkw
      · simp [determine_specialist_type, habn, ih hrest]
      · by_cases habn : abnormalStatus b.status = true
        · simp [determine_specialist_type, habn, hkw, ih hrest]
        · rw [Bool.not_eq_true] at habn
          simp [determine_specialist_type, habn, ih hrest]
  · intro pre rest k b sp cond hpre habn hkw
    induction pre with
    | nil => simp [determine_specialist_type, habn, hkw]
    | cons p t ih =>
      obtain ⟨k2, b2⟩ := p
      have hrest := fun q hq => hpre q (List.mem_cons_of_mem _ hq)
      rcases hpre (k2, b2) (List.mem_cons_self _ _) with habn2 | hkw2
      · simp [determine_specialist_type, habn2, ih hrest]
      · by_cases habn2 : abnormalStatus b2.status = true
        · simp [determine_specialist_type, habn2, hkw2, ih hrest]
        · rw [Bool.not_eq_true] at habn2
          simp [determine_specialist_type, habn2, ih hrest]

/-- Witness for C5: the default and first-match characterizations applied at
concrete mappings. -/
theorem claim_C5_witness :
    determine_specialist_type [("vitamin d", ⟨"Vitamin D", 10, "ng/mL", some 30, some 100, "low", none⟩)] =
      ("Primary Care Physician", "Abnormal Lab Values") ∧
    determine_specialist_type [("vitamin d", ⟨"Vitamin D", 10, "ng/mL", some 30, some 100, "low", none⟩), ("Glucose", bioGlucoseHigh)] =
      ("Endocrinologist", "Diabetes/Glucose Management") :=
  ⟨claim_C5.1 [("vitamin d", ⟨"Vitamin D", 10, "ng/mL", some 30, some 100, "low", none⟩)]
     (by decide),
   claim_C5.2.1 [("vitamin d", ⟨"Vitamin D", 10, "ng/mL", some 30, some 100, "low", none⟩)] []
     "Glucose" bioGlucoseHigh "Endocrinologist" "Diabetes/Glucose Management"
     (by decide) (by decide) (by decide)⟩

/-- C6: normal-range parsing: a hyphenated pair of numbers yields (A, B); a
single number preceded by `<` yields (None, value); preceded by `>` yields
(value, None); no operator yields (value, value); a string with no numeric
material yields (None, None); and the spec's four concrete vectors hold. -/
theorem claim_C6 :
    (∀ a b : List Char, (∀ c ∈ a, c.isDigit = true) → (∀ c ∈ b, c.isDigit = true) →
      a ≠ [] → b ≠ [] →
      parse_normal_range (a ++ '-' :: b).asString =
        (some ((digitsToNat a : ℚ)), some ((digitsToNat b : ℚ)))) ∧
    (∀ sp d : List Char, (∀ c ∈ sp, isPyWs c = true) → (∀ c ∈ d, c.isDigit = true) → d ≠ [] →
      parse_normal_range ('<' :: (sp ++ d)).asString = (none, some ((digitsToNat d : ℚ)))) ∧
    (∀ sp d : List Char, (∀ c ∈ sp, isPyWs c = true) → (∀ c ∈ d, c.isDigit = true) → d ≠ [] →
      parse_normal_range ('>' :: (sp ++ d)).asString = (some ((digitsToNat d : ℚ)), none)) ∧
    (∀ d : List Char, (∀ c ∈ d, c.isDigit = true) → d ≠ [] →
      parse_normal_range d.asString = (some ((digitsToNat d : ℚ)), some ((digitsToNat d : ℚ)))) ∧
    (∀ l : List Char, (∀ c ∈ l, isDigitDotC c = false) →
      parse_normal_range l.asString = (none, none)) ∧
    parse_normal_range "< 41 U/L" = (none, some 41) ∧
    parse_normal_range "135-145 mmol/L" = (some 135, some 145) ∧
    parse_normal_range "> 7.0" = (some 7, none) ∧
    parse_normal_range "garbage" = (none, none) := by
  refine ⟨?_, ?_, ?_, ?_, ?_, by decide, by decide, by decide, by decide⟩
  · intro a b ha hb ha0 hb0
    exact pnr_hyphen ha hb ha0 hb0
  · intro sp d hsp hd hd0
    have h := @pnr_single ['<'] sp d (by decide) hsp hd hd0
    simpa using h
  · intro sp d hsp hd hd0
    have h := @pnr_single ['>'] sp d (by decide) hsp hd hd0
    simpa using h
  · intro d hd hd0
    have h := @pnr_single [] [] d (by simp) (by simp) hd hd0
    simpa using h
  · intro l h
    exact pnr_no_digitdot h

/-- Witness for C6: each characterization applied at a concrete input. -/
theorem claim_C6_witness :
    parse_normal_range "12-34" = (some 12, some 34) ∧
    parse_normal_range "< 9" = (none, some 9) ∧
    parse_normal_range "> 5" = (some 5, none) ∧
    parse_normal_range "77" = (some 77, some 77) ∧
    parse_normal_range "xyz" = (none, none) := by
  refine ⟨?_, ?_, ?_, ?_, ?_⟩
  · have h := claim_C6.1 ['1', '2'] ['3', '4'] (by decide) (by decide) (by decide) (by decide)
    rw [show ((digitsToNat ['1', '2'] : ℚ)) = 12 by decide,
      show ((digitsToNat ['3', '4'] : ℚ)) = 34 by decide] at h
    exact h
  · have h := claim_C6.2.1 [' '] ['9'] (by decide) (by decide) (by decide)
    rw [show ((digitsToNat ['9'] : ℚ)) = 9 by decide] at h
    exact h
  · have h := claim_C6.2.2.1 [' '] ['5'] (by decide) (by decide) (by decide)
    rw [show ((digitsToNat ['5'] : ℚ)) = 5 by decide] at h
    exact h
  · have h := claim_C6.2.2.2.1 ['7', '7'] (by decide) (by decide)
    rw [show ((digitsToNat ['7', '7'] : ℚ)) = 77 by decide] at h
    exact h
  · exact claim_C6.2.2.2.2.1 ['x', 'y', 'z'] (by decide)

/-- C9: a single value preceded by a multi-character comparison operator such
as `<=` or `>=` (with no hyphenated pair present) parses as the exact-target
result (value, value), not as the one-sided bound of the strict operator. -/
theorem claim_C9 :
    (∀ ops sp d : List Char, (∀ c ∈ ops, isOpC c = true) → 2 ≤ ops.length →
      (∀ c ∈ sp, isPyWs c = true) → (∀ c ∈ d, c.isDigit = true) → d ≠ [] →
      parse_normal_range (ops ++ (sp ++ d)).asString =
        (some ((digitsToNat d : ℚ)), some ((digitsToNat d : ℚ)))) ∧
    parse_normal_range "<= 7.0" = (some 7, some 7) ∧
    parse_normal_range ">= 7.0" = (some 7, some 7) ∧
    parse_normal_range "<= 150 mg/dL" = (some 150, some 150) := by
  refine ⟨?_, by decide, by decide, by decide⟩
  intro ops sp d hops hlen hsp hd hd0
  have h := pnr_single hops hsp hd hd0
  have h1 : ops ≠ ['<'] := by
    intro e; rw [e] at hlen; exact absurd hlen (by decide)
  have h2 : ops ≠ ['>'] := by
    intro e; rw [e] at hlen; exact absurd hlen (by decide)
  rw [if_neg h1, if_neg h2] at h
  exact h

/-- Witness for C9 at the concrete operator `<=`. -/
theorem claim_C9_witness : parse_normal_range "<=9" = (some 9, some 9) := by
  have h := claim_C9.1 ['<', '='] [] ['9'] (by decide) (by decide) (by decide) (by decide) (by decide)
  rw [show ((digitsToNat ['9'] : ℚ)) = 9 by decide] at h
  exact h

/-- Characterization of the summary written by the interpreter node. -/
theorem interpret_lab_node_summary (llm : String → String) (now : String) (s : GraphState) :
    (interpret_lab_node llm now s).interpretation_summary =
      some (if (parse_biomarkers (llm (preprocessLab s.redacted_text.toList).asString)).isEmpty
        then (if 200 < (llm (preprocessLab s.redacted_text.toList).asString).toList.length
              then ((llm (preprocessLab s.redacted_text.toList).asString).toList.take 200).asString ++ "..."
              else llm (preprocessLab s.redacted_text.toList).asString)
        else summaryFor (parse_biomarkers (llm (preprocessLab s.redacted_text.toList).asString))) := by
  simp only [interpret_lab_node]
  by_cases h : (parse_biomarkers (llm (preprocessLab s.redacted_text.toList).asString)).isEmpty <;>
    simp [h]

/-- C8: when extraction yields at least one biomarker, the interpretation
summary reports the biomarker count and the count requiring attention; when it
yields none, the summary is a truncated excerpt of the raw model output whose
excerpt is capped at 200 characters (with an ellipsis marker appended when
truncation occurred). -/
theorem claim_C8 (llm : String → String) (now : String) (s : GraphState)
    (resp : String) (bs : List (String × Biomarker))
    (hresp : resp = llm (preprocessLab s.redacted_text.toList).asString)
    (hbs : bs = parse_biomarkers resp) :
    (bs ≠ [] →
      (interpret_lab_node llm now s).interpretation_summary =
        some ("Successfully analyzed " ++ toString bs.length ++ " biomarker(s). " ++
          (if (bs.filter (fun p => p.2.status ≠ "normal")).length = 0
           then "All values are within normal ranges."
           else toString (bs.filter (fun p => p.2.status ≠ "normal")).length ++
             " value(s) require attention."))) ∧
    (bs = [] →
      (interpret_lab_node llm now s).interpretation_summary =
        some (if 200 < resp.toList.length then (resp.toList.take 200).asString ++ "..." else resp) ∧
      ((resp.toList.take 200).asString).length ≤ 200) := by
  subst hresp
  constructor
  · intro h
    have hne : (parse_biomarkers (llm (preprocessLab s.redacted_text.toList).asString)).isEmpty = false := by
      rw [← hbs]
      cases bs with
      | nil => exact absurd rfl h
      | cons x t => rfl
    rw [interpret_lab_node_summary, hne]
    rw [← hbs]
    simp [summaryFor]
  · intro h
    have hp : parse_biomarkers (llm (preprocessLab s.redacted_text.toList).asString) = [] := by
      rw [← hbs]; exact h
    constructor
    · rw [interpret_lab_node_summary, hp]
      simp
    · simp

/-- Witness for C8: a model output with no payload lands in the excerpt
branch, and one with a payload lands in the counting branch. -/
theorem claim_C8_witness :
    (interpret_lab_node (fun _ => "free text, no payload") "t1" sessionFresh).interpretation_summary =
      some "free text, no payload" ∧
    (interpret_lab_node (fun _ => "\x7b\"K\": \x7b\"Name\":\"K\",\"Value\":\"5.8 mmol/L\",\"Status\":\"high\"\x7d\x7d") "t1" sessionFresh).interpretation_summary =
      some "Successfully analyzed 1 biomarker(s). 1 value(s) require attention." := by
  constructor
  · have h := (claim_C8 (fun _ => "free text, no payload") "t1" sessionFresh
      "free text, no payload" [] (by decide) (by decide)).2 rfl
    exact h.1.trans (by decide)
  · have h := (claim_C8
      (fun _ => "\x7b\"K\": \x7b\"Name\":\"K\",\"Value\":\"5.8 mmol/L\",\"Status\":\"high\"\x7d\x7d")
      "t1" sessionFresh
      "\x7b\"K\": \x7b\"Name\":\"K\",\"Value\":\"5.8 mmol/L\",\"Status\":\"high\"\x7d\x7d"
      [("K", ⟨"K", mkRat 29 5, "mmol/L", none, none, "high", none⟩)]
      (by decide) (by decide)).1 (by decide)
    exact h.trans (by decide)

/-- C3: the biomarker extractor is total at its boundary: it always returns a
mapping; when no payload can be located or no repair makes the payload parse,
it returns the empty mapping; the spec's truncation vector (input ending
mid-object with no closing braces) recovers the single biomarker, the spec's
trailing-comma vector recovers its biomarker exactly, and prose with no
payload yields the empty mapping. -/
theorem claim_C3 :
    (∀ s : String, ∃ bs, parse_biomarkers s = bs) ∧
    (∀ s : String, jsonStartIndex s.toList = none → parse_biomarkers s = []) ∧
    (∀ s : String, pbData? s.toList = none → parse_biomarkers s = []) ∧
    parse_biomarkers "\x7b\"K\": \x7b\"Name\":\"K\",\"Value\":\"5.8 mmol/L\",\"Status\":\"high\"" =
      [("K", ⟨"K", mkRat 29 5, "mmol/L", none, none, "high", none⟩)] ∧
    parse_biomarkers "prefix ```json\n\x7b\"Na\": \x7b\"Name\":\"Na\",\"Value\":\"141 mmol/L\",\"Normal_range\":\"135-145\",\"Status\":\"normal\",\x7d\x7d\n``` suffix" =
      [("Na", ⟨"Na", 141, "mmol/L", some 135, some 145, "normal", none⟩)] ∧
    parse_biomarkers "The report shows no structured data." = [] := by
  refine ⟨fun s => ⟨_, rfl⟩, ?_, ?_, by decide, by decide, by decide⟩
  · intro s h
    have h2 : jsonStartIndex s.data = none := h
    simp [parse_biomarkers, parseBiomarkersCore, pbData?, pbJsonStr?, h2]
  · intro s h
    have h2 : pbData? s.data = none := h
    simp [parse_biomarkers, parseBiomarkersCore, h2]

/-- Witness for C3: the no-payload characterization applied at a concrete
input with no opening brace. -/
theorem claim_C3_witness : parse_biomarkers "plain prose answer" = [] :=
  claim_C3.2.1 "plain prose answer" (by decide)

theorem buildLoop_split :
    ∀ (pre tail : List (String × JsonVal)) (acc : List (String × Biomarker)),
      (∀ q ∈ pre, convOk q) →
      buildLoop (pre ++ tail) acc = buildLoop tail (acc ++ pre.filterMap convOf) := by
  intro pre
  induction pre with
  | nil => intro tail acc h; simp
  | cons q t ih =>
    intro tail acc h
    obtain ⟨k, v⟩ := q
    have hq := h (k, v) (List.mem_cons_self _ _)
    have ht := fun q2 hq2 => h q2 (List.mem_cons_of_mem _ hq2)
    cases v with
    | obj f =>
      obtain ⟨b, hb⟩ := hq f rfl
      simp only [List.cons_append, buildLoop, List.append_eq, hb]
      rw [ih tail (acc ++ [(k, b)]) ht]
      simp [convOf, hb]
    | null =>
      simp only [List.cons_append, buildLoop, List.append_eq]
      rw [ih tail acc ht]
      simp [convOf]
    | bool b2 =>
      simp only [List.cons_append, buildLoop, List.append_eq]
      rw [ih tail acc ht]
      simp [convOf]
    | num q2 =>
      simp only [List.cons_append, buildLoop, List.append_eq]
      rw [ih tail acc ht]
      simp [convOf]
    | str s2 =>
      simp only [List.cons_append, buildLoop, List.append_eq]
      rw [ih tail acc ht]
      simp [convOf]
    | arr xs =>
      simp only [List.cons_append, buildLoop, List.append_eq]
      rw [ih tail acc ht]
      simp [convOf]

/-- C10: when the payload parses but converting one entry raises mid-iteration
(for example a non-string `Status`), the returned mapping holds exactly the
entries successfully built before the failure, with non-object top-level
entries silently skipped; at the concrete input `c10input` the payload has
three entries and the result is the non-empty proper subset holding only the
first. -/
theorem claim_C10 :
    (∀ (s : String) (entries : List (String × JsonVal)),
      pbData? s.toList = some entries →
      parse_biomarkers s = (buildLoop entries []).1) ∧
    (∀ (pre rest : List (String × JsonVal)) (k : String) (f : List (String × JsonVal)),
      (∀ q ∈ pre, convOk q) →
      toBiomarker k f = Except.error () →
      (buildLoop (pre ++ (k, JsonVal.obj f) :: rest) []).1 = pre.filterMap convOf) ∧
    parse_biomarkers c10input = [("A", ⟨"A", 1, "g", none, none, "high", none⟩)] ∧
    parse_biomarkers c10input ≠ [] ∧
    (parse_biomarkers c10input).length = 1 ∧
    toBiomarker "B" [("Name", JsonVal.str "B"), ("Status", JsonVal.num (mkRat 5 1))] =
      Except.error () ∧
    parse_biomarkers c10skip = [("A", ⟨"A", 1, "g", none, none, "high", none⟩)] ∧
    (buildLoop c10entries []).1 = [("A", ⟨"A", 1, "g", none, none, "high", none⟩)] ∧
    c10entries.length = 3 := by
  refine ⟨?_, ?_, by decide, by decide, by decide, by decide, by decide, by decide, by decide⟩
  · intro s entries hdata
    unfold parse_biomarkers parseBiomarkersCore
    rw [hdata]
  · intro pre rest k f hpre herr
    rw [buildLoop_split pre ((k, JsonVal.obj f) :: rest) [] hpre]
    simp [buildLoop, herr]

/-- Witness for C10: the partial-build characterization applied at the
concrete payload entries, whose conversion stops at the non-string status. -/
theorem claim_C10_witness :
    (buildLoop c10entries []).1 =
      ([("A", JsonVal.obj [("Name", JsonVal.str "A"), ("Value", JsonVal.str "1 g"),
          ("Status", JsonVal.str "high")]),
        ("C", JsonVal.num (mkRat 3 1))] : List (String × JsonVal)).filterMap convOf := by
  refine claim_C10.2.1
    [("A", JsonVal.obj [("Name", JsonVal.str "A"), ("Value", JsonVal.str "1 g"),
        ("Status", JsonVal.str "high")]),
     ("C", JsonVal.num (mkRat 3 1))]
    [] "B" [("Name", JsonVal.str "B"), ("Status", JsonVal.num (mkRat 5 1))]
    ?_ (by decide)
  intro q hq
  rcases List.mem_cons.1 hq with rfl | hq2
  · intro f hf
    cases hf
    exact ⟨⟨"A", 1, "g", none, none, "high", none⟩, by decide⟩
  · rcases List.mem_cons.1 hq2 with rfl | hq3
    · intro f hf
      exact absurd hf (by simp)
    · cases hq3

/-- C2 fails on the code: `approve_specialist_search` calls
`graph.ainvoke(graph_state, config)` with the full state as a non-`None`
input, which makes LangGraph start a new pass from the entry point, so the
interpreter re-runs (a fresh model call) before the lookup stage.  At this
failing input — an interpreted session awaiting approval whose second model
response carries no payload — the approval call overwrites the stored
biomarkers with the empty mapping, overwrites the summary with the raw
response excerpt, clears `specialist_type`, and (because the re-run interpreter
now reports no referral) never executes the lookup at all, leaving
`specialist_results` empty even though the search was just approved with a
type and zip present. -/
theorem claim_C2 :
    (approve_specialist_search (fun _ => "no structured data") stubLookup "t2"
        sessionInterpreted).specialist_search_approved = true ∧
    (approve_specialist_search (fun _ => "no structured data") stubLookup "t2"
        sessionInterpreted).biomarkers = [] ∧
    sessionInterpreted.biomarkers ≠ [] ∧
    (approve_specialist_search (fun _ => "no structured data") stubLookup "t2"
        sessionInterpreted).interpretation_summary = some "no structured data" ∧
    sessionInterpreted.interpretation_summary ≠ some "no structured data" ∧
    (approve_specialist_search (fun _ => "no structured data") stubLookup "t2"
        sessionInterpreted).specialist_type = none ∧
    pyTruthyStr sessionInterpreted.specialist_type = true ∧
    pyTruthyStr sessionInterpreted.patient_zip = true ∧
    (approve_specialist_search (fun _ => "no structured data") stubLookup "t2"
        sessionInterpreted).specialist_results = [] := by
  refine ⟨by decide, by decide, by decide, by decide, by decide, by decide, by decide, by decide,
    by decide⟩
